import Mathlib

/-!
Shallow embedding of the recipe-enrichment pipeline of this repository.

Strings manipulated by the JavaScript code are modelled as `List Char`
(`Str`).  The two main pipeline variants are embedded in namespaces `P0`
(the file with the circuit breaker and the smart fallback classifier) and
`P1` (the file with title standardization, code-fence stripping and
`validateAnalysis`).  Network effects (fetch, OpenAI call, JSON parsing)
are modelled as explicit outcome parameters, so that the control flow
around them (try/catch, circuit breaker, cache, fallback) is embedded
faithfully and executably.
-/

/-- Strings as lists of characters. -/
abbrev Str := List Char

/-- Literal helper: the character list of a Lean string literal. -/
def str (s : String) : Str := s.data

/-- JS truthiness of an optional string: `undefined`, `null` and `""` are falsy. -/
def truthy : Option Str → Bool
  | none => false
  | some s => !s.isEmpty

/-- JS `String.prototype.includes`: substring test. -/
def hasSub : Str → Str → Bool
  | [], pat => pat.isEmpty
  | c :: cs, pat => pat.isPrefixOf (c :: cs) || hasSub cs pat

/-- JS `String.prototype.toLowerCase`, restricted to ASCII as in the model. -/
def toLowerStr (s : Str) : Str := s.map Char.toLower

/-- JS `String.prototype.toUpperCase` on a single-character slice. -/
def toUpperStr (s : Str) : Str := s.map Char.toUpper

/-- The whitespace characters recognised by the model (JS `\s`, ASCII part,
matching `Char.isWhitespace`). -/
def isWsChar (c : Char) : Bool := c = ' ' || c = '\t' || c = '\n' || c = '\r'

/-- JS `String.prototype.trim` (ASCII whitespace). -/
def trimWs (s : Str) : Str :=
  ((s.dropWhile isWsChar).reverse.dropWhile isWsChar).reverse

/-- JS `Array.prototype.join(' ')`. -/
def joinSpace : List Str → Str
  | [] => []
  | [w] => w
  | w :: ws => w ++ ' ' :: joinSpace ws

/-- JS `String.prototype.split(' ')` (split on every single space). -/
def splitSpace : Str → List Str
  | [] => [[]]
  | c :: cs =>
    if c = ' ' then [] :: splitSpace cs
    else
      match splitSpace cs with
      | w :: ws => (c :: w) :: ws
      | [] => [[c]]

/-- De-duplication keeping the first occurrence, as `[...new Set(xs)]` does. -/
def dedupFirst (l : List Str) : List Str :=
  l.foldl (fun acc x => if x ∈ acc then acc else acc ++ [x]) []

section CharLemmas

theorem char_toNat_ofNat (n : Nat) (h : n.isValidChar) : (Char.ofNat n).toNat = n := by
  simp only [Char.ofNat, dif_pos h, Char.ofNatAux, Char.toNat, UInt32.toNat]
  simp [BitVec.toNat_ofNatLt]

theorem char_toNat_inj {a b : Char} (h : a.toNat = b.toNat) : a = b := by
  apply Char.eq_of_val_eq
  apply UInt32.eq_of_toBitVec_eq
  apply BitVec.eq_of_toNat_eq
  exact h

theorem toNat_toUpper (c : Char) :
    c.toUpper.toNat = if 97 ≤ c.toNat ∧ c.toNat ≤ 122 then c.toNat - 32 else c.toNat := by
  show ((if c.toNat ≥ 97 ∧ c.toNat ≤ 122 then Char.ofNat (c.toNat - 32) else c)).toNat = _
  by_cases h : 97 ≤ c.toNat ∧ c.toNat ≤ 122
  · rw [if_pos h, if_pos h, char_toNat_ofNat]
    exact Or.inl (by omega)
  · rw [if_neg h, if_neg h]

theorem toNat_toLower (c : Char) :
    c.toLower.toNat = if 65 ≤ c.toNat ∧ c.toNat ≤ 90 then c.toNat + 32 else c.toNat := by
  show ((if c.toNat ≥ 65 ∧ c.toNat ≤ 90 then Char.ofNat (c.toNat + 32) else c)).toNat = _
  by_cases h : 65 ≤ c.toNat ∧ c.toNat ≤ 90
  · rw [if_pos h, if_pos h, char_toNat_ofNat]
    exact Or.inl (by omega)
  · rw [if_neg h, if_neg h]

theorem toUpper_toUpper (c : Char) : c.toUpper.toUpper = c.toUpper := by
  apply char_toNat_inj
  rw [toNat_toUpper, toNat_toUpper]
  by_cases h : 97 ≤ c.toNat ∧ c.toNat ≤ 122
  · rw [if_pos h, if_neg (by omega)]
  · rw [if_neg h, if_neg h]

theorem toLower_toLower (c : Char) : c.toLower.toLower = c.toLower := by
  apply char_toNat_inj
  rw [toNat_toLower, toNat_toLower]
  by_cases h : 65 ≤ c.toNat ∧ c.toNat ≤ 90
  · rw [if_pos h, if_neg (by omega)]
  · rw [if_neg h, if_neg h]

theorem toLower_toUpper (c : Char) : c.toUpper.toLower = c.toLower := by
  apply char_toNat_inj
  rw [toNat_toLower, toNat_toUpper, toNat_toLower]
  by_cases h : 97 ≤ c.toNat ∧ c.toNat ≤ 122
  · rw [if_pos h, if_pos (by omega), if_neg (by omega)]
    omega
  · rw [if_neg h]

theorem toUpper_eq_space_iff (c : Char) : c.toUpper = ' ' ↔ c = ' ' := by
  constructor
  · intro h
    have h2 : c.toUpper.toNat = 32 := by rw [h]; rfl
    rw [toNat_toUpper] at h2
    by_cases hc : 97 ≤ c.toNat ∧ c.toNat ≤ 122
    · rw [if_pos hc] at h2
      exact absurd h2 (by omega)
    · rw [if_neg hc] at h2
      exact char_toNat_inj (by rw [h2]; rfl)
  · intro h
    subst h
    rfl

theorem toLower_eq_space_iff (c : Char) : c.toLower = ' ' ↔ c = ' ' := by
  constructor
  · intro h
    have h2 : c.toLower.toNat = 32 := by rw [h]; rfl
    rw [toNat_toLower] at h2
    by_cases hc : 65 ≤ c.toNat ∧ c.toNat ≤ 90
    · rw [if_pos hc] at h2
      exact absurd h2 (by omega)
    · rw [if_neg hc] at h2
      exact char_toNat_inj (by rw [h2]; rfl)
  · intro h
    subst h
    rfl

end CharLemmas

/-! ## Vocabulary Registry (RECIPE_OPTIONS, identical in both source files) -/

/-- RECIPE_OPTIONS.CUISINE. -/
def CUISINE_OPTIONS : List Str :=
  [str "African", str "American", str "Asian", str "Brazilian", str "Chinese", str "Dessert",
   str "French", str "German", str "Greek", str "Hungarian", str "Indian", str "Italian",
   str "Japanese", str "Korean", str "Mediterranean", str "Mexican", str "Middle Eastern",
   str "Persian", str "Peruvian", str "Spanish", str "Thai", str "Vietnamese"]

/-- RECIPE_OPTIONS.MEAL. -/
def MEAL_OPTIONS : List Str :=
  [str "Main Dish", str "Side Dish", str "Breakfast", str "Dessert", str "Snack", str "Beverage"]

/-- RECIPE_OPTIONS.TAGS. -/
def TAG_OPTIONS : List Str :=
  [str "Appetizer", str "Baked", str "Braised", str "Breakfast", str "Chocolate", str "Citrusy",
   str "Condiment", str "Creamy", str "Curry", str "Drink", str "Eggs", str "Fish", str "Grilled",
   str "Herby", str "No Bake", str "Pasta", str "Pickled", str "Refreshing", str "Roasted",
   str "Salad", str "Sandwich", str "Savory", str "Seafood", str "Soup", str "Spicy", str "Steamed",
   str "Stew", str "Stir-Fry", str "Sweet", str "Tangy", str "Traditional", str "Vegan", str "Vegetarian"]

/-- RECIPE_OPTIONS.INGREDIENTS. -/
def INGREDIENT_OPTIONS : List Str :=
  [str "Beef", str "Chicken", str "Pork", str "Fish", str "Salmon", str "Shrimp", str "Eggs", str "Cheese",
   str "Pasta", str "Rice", str "Bread", str "Potato", str "Tomato", str "Onions", str "Garlic",
   str "Spinach", str "Broccoli", str "Carrot", str "Mushrooms", str "Peppers", str "Lemon",
   str "Basil", str "Herbs", str "Ginger", str "Chili", str "Beans", str "Cream", str "Milk"]

/-! ## Data model -/

/-- A recipe record as assembled by `getIncompleteRecipes` from the record store
(`name` and the list fields are defaulted to empty there, the two select fields
may be absent). -/
structure Recipe where
  id : String
  name : Str
  link : Option Str
  current_meal : Option Str
  current_cuisine : Option Str
  current_tags : List Str
  current_ingredients : List Str
  deriving DecidableEq, Repr

/-- A Classification Result as parsed from the model's JSON or built by the
fallback classifier. `none` models JSON `null`/absent. Confidence is modelled
as a rational number. -/
structure Analysis where
  standardized_title : Option Str
  meal : Option Str
  cuisine : Option Str
  tags : Option (List Str)
  key_ingredients : Option (List Str)
  confidence : Rat
  reasoning : Str
  deriving DecidableEq, Repr

/-- One image candidate produced by `extractMainImage`. -/
structure ImageInfo where
  url : Str
  alt : Str
  width : Option Nat
  height : Option Nat
  source : String
  deriving DecidableEq, Repr

/-- An `img` element of the fetched page (attributes, with `width`/`height`
already taken through `parseInt`: `none` models a missing or non-numeric
attribute). -/
structure ImgEl where
  src : Option Str
  dataSrc : Option Str
  alt : Option Str
  width : Option Nat
  height : Option Nat
  deriving DecidableEq, Repr

/-- The parsed HTML page, modelled as the cheerio selection function: for a
selector it yields the (untrimmed) texts of the matching elements resp. the
matching `img` elements. -/
structure Doc where
  texts : String → List Str
  imgs : String → List ImgEl

/-- Extracted Page Data (the `recipeData` object of the circuit-breaker variant). -/
structure PageData where
  title : Option Str
  ingredients : List Str
  instructions : List Str
  images : Option (List ImageInfo)
  description : Option Str
  deriving DecidableEq, Repr

/-- A Suggested Change Set: per field, an optional `(current, suggested)` pair. -/
structure Changes where
  meal : Option (Str × Str)
  cuisine : Option (Str × Str)
  tags : Option (List Str × List Str)
  key_ingredients : Option (List Str × List Str)
  title : Option (Str × Str)
  deriving DecidableEq, Repr

/-! ## P0: the production-ready variant (circuit breaker, smart fallback,
    Vercel handler). -/

namespace P0

/-- CONFIG.MAX_RECIPES_PER_BATCH. -/
def MAX_RECIPES_PER_BATCH : Nat := 3

/-- CONFIG.CACHE_TTL_MS (24 hours). -/
def CACHE_TTL_MS : Nat := 24 * 60 * 60 * 1000

/-- Circuit Breaker State (`failures`, `lastFailTime`; `none` models JS `null`). -/
structure CircuitBreaker where
  failures : Nat
  lastFailTime : Option Nat
  deriving DecidableEq, Repr

/-- circuitBreaker.threshold. -/
def threshold : Nat := 3

/-- circuitBreaker.resetTime (5 minutes). -/
def resetTime : Nat := 5 * 60 * 1000

/-- circuitBreaker.isOpen(): open while failures reached the threshold and the
reset window since the last failure has not elapsed. `Date.now()` is the
explicit `now` argument; JS `now - null` coerces `null` to `0`, modelled by
`getD 0`. -/
def isOpen (cb : CircuitBreaker) (now : Nat) : Bool :=
  if cb.failures ≥ threshold then
    decide (now - cb.lastFailTime.getD 0 < resetTime)
  else
    false

/-- circuitBreaker.recordSuccess(). -/
def recordSuccess (_cb : CircuitBreaker) : CircuitBreaker :=
  { failures := 0, lastFailTime := none }

/-- circuitBreaker.recordFailure() at time `now`. -/
def recordFailure (cb : CircuitBreaker) (now : Nat) : CircuitBreaker :=
  { failures := cb.failures + 1, lastFailTime := some now }

/-- The ingredient→pattern table of `extractKeyIngredientsFromList`. -/
def ingredientMapping : List (Str × List Str) :=
  [(str "chicken", [str "chicken", str "poultry"]),
   (str "beef", [str "beef", str "ground beef", str "steak"]),
   (str "pork", [str "pork", str "bacon", str "ham"]),
   (str "fish", [str "fish", str "cod", str "tilapia"]),
   (str "salmon", [str "salmon"]),
   (str "shrimp", [str "shrimp", str "prawns"]),
   (str "eggs", [str "egg", str "eggs"]),
   (str "cheese", [str "cheese", str "cheddar", str "mozzarella", str "parmesan"]),
   (str "pasta", [str "pasta", str "spaghetti", str "penne", str "noodles"]),
   (str "rice", [str "rice", str "basmati", str "jasmine"]),
   (str "bread", [str "bread", str "flour", str "wheat"]),
   (str "potato", [str "potato", str "potatoes"]),
   (str "tomato", [str "tomato", str "tomatoes"]),
   (str "onions", [str "onion", str "onions"]),
   (str "garlic", [str "garlic"]),
   (str "spinach", [str "spinach"]),
   (str "broccoli", [str "broccoli"]),
   (str "carrot", [str "carrot", str "carrots"]),
   (str "mushrooms", [str "mushroom", str "mushrooms"]),
   (str "peppers", [str "pepper", str "peppers", str "bell pepper"]),
   (str "lemon", [str "lemon", str "lemons"]),
   (str "basil", [str "basil"]),
   (str "herbs", [str "herbs", str "parsley", str "cilantro", str "oregano"]),
   (str "ginger", [str "ginger"]),
   (str "chili", [str "chili", str "jalapeño", str "cayenne"]),
   (str "beans", [str "beans", str "black beans", str "kidney beans"]),
   (str "cream", [str "cream", str "heavy cream"]),
   (str "milk", [str "milk"])]

/-- The inner double loop body of `extractKeyIngredientsFromList` for one
scraped ingredient (already lowercased): try every mapping entry, push the
matching registry name if not already collected. -/
def collectFromScraped (acc : List Str) (ing : Str) : List Str :=
  ingredientMapping.foldl
    (fun a kp =>
      if kp.2.any (fun pat => hasSub ing pat) then
        match INGREDIENT_OPTIONS.find? (fun opt => toLowerStr opt = toLowerStr kp.1) with
        | some mapped => if mapped ∈ a then a else a ++ [mapped]
        | none => a
      else a)
    acc

/-- extractKeyIngredientsFromList: scan the first 10 scraped ingredient strings,
stop once 5 or more registry names are collected (checked between scraped
items), return `null` when nothing matched. -/
def extractKeyIngredientsFromList (scraped : List Str) : Option (List Str) :=
  let res := go (scraped.take 10) []
  if res.length > 0 then some res else none
where
  go : List Str → List Str → List Str
    | [], acc => acc
    | s :: ss, acc =>
      let acc' := collectFromScraped acc (toLowerStr s)
      if acc'.length ≥ 5 then acc' else go ss acc'

/-- The meat keywords of the dietary-tag inference. -/
def meatKeywords : List Str :=
  [str "chicken", str "beef", str "pork", str "fish", str "salmon", str "shrimp"]

/-- One conditional `tags.push(t)`: the singleton when the condition holds. -/
def condTag (b : Bool) (t : Str) : List Str := if b then [t] else []

/-- The concatenated (lowercased) ingredient text `ingredients.join(' ').toLowerCase()`. -/
def ingText (ingredients : List Str) : Str := toLowerStr (joinSpace ingredients)

/-- The `hasMeat` test of the dietary-tag inference. -/
def hasMeat (name : Str) (ingredients : List Str) : Bool :=
  meatKeywords.any fun meat => hasSub name meat || hasSub (ingText ingredients) meat

/-- The dietary tag pushed by `inferTagsFromNameAndIngredients`: `Vegan` when
neither a meat keyword nor an egg/cheese mention is present, else `Vegetarian`
when no meat keyword is present. -/
def dietaryTags (name : Str) (ingredients : List Str) : List Str :=
  if !hasMeat name ingredients && !hasSub (ingText ingredients) (str "egg")
      && !hasSub (ingText ingredients) (str "cheese") then
    [str "Vegan"]
  else if !hasMeat name ingredients then [str "Vegetarian"]
  else []

/-- The cooking-method, dish-type and flavor tags pushed by
`inferTagsFromNameAndIngredients` before the dietary tag. -/
def methodAndFlavorTags (name : Str) (ingredients : List Str) : List Str :=
  let ingredientText := ingText ingredients
  condTag (hasSub name (str "baked") || hasSub name (str "baking")) (str "Baked") ++
    condTag (hasSub name (str "grilled") || hasSub name (str "grill")) (str "Grilled") ++
    condTag (hasSub name (str "roasted") || hasSub name (str "roast")) (str "Roasted") ++
    condTag (hasSub name (str "stir fry") || hasSub name (str "stir-fry")) (str "Stir-Fry") ++
    condTag (hasSub name (str "steamed")) (str "Steamed") ++
    condTag (hasSub name (str "braised")) (str "Braised") ++
    condTag (hasSub name (str "salad")) (str "Salad") ++
    condTag (hasSub name (str "soup")) (str "Soup") ++
    condTag (hasSub name (str "sandwich")) (str "Sandwich") ++
    condTag (hasSub name (str "pasta")) (str "Pasta") ++
    condTag (hasSub name (str "curry")) (str "Curry") ++
    condTag (hasSub name (str "spicy") || hasSub ingredientText (str "chili")
      || hasSub ingredientText (str "pepper")) (str "Spicy") ++
    condTag (hasSub name (str "sweet") || hasSub ingredientText (str "sugar")
      || hasSub ingredientText (str "honey")) (str "Sweet") ++
    condTag (hasSub name (str "creamy") || hasSub ingredientText (str "cream")
      || hasSub ingredientText (str "cheese")) (str "Creamy")

/-- The full tag list pushed by `inferTagsFromNameAndIngredients`. -/
def allTags (name : Str) (ingredients : List Str) : List Str :=
  methodAndFlavorTags name ingredients ++ dietaryTags name ingredients

/-- inferTagsFromNameAndIngredients: cooking-method, dish-type, flavor and
dietary tags from the (lowercased) recipe name and the scraped ingredient
strings; capped at 4 tags, `null` when empty. -/
def inferTagsFromNameAndIngredients (name : Str) (ingredients : List Str) : Option (List Str) :=
  let tags : List Str := allTags name ingredients
  if tags.length > 0 then some (tags.take 4) else none

/-- createSmartFallbackAnalysis: rule-based Classification Result from the
recipe name and the scraped ingredient list (`extractedData?.ingredients || []`). -/
def createSmartFallbackAnalysis (recipe : Recipe) (extractedData : Option PageData) : Analysis :=
  let name := toLowerStr recipe.name
  let ingredients := match extractedData with
    | some d => d.ingredients
    | none => []
  let meal : Option Str :=
    if truthy recipe.current_meal then none
    else if hasSub name (str "breakfast") || hasSub name (str "pancake")
        || hasSub name (str "oatmeal") || hasSub name (str "cereal") then some (str "Breakfast")
    else if hasSub name (str "dessert") || hasSub name (str "cake")
        || hasSub name (str "cookie") || hasSub name (str "ice cream") then some (str "Dessert")
    else if hasSub name (str "salad") || hasSub name (str "side")
        || hasSub name (str "appetizer") then some (str "Side Dish")
    else if hasSub name (str "drink") || hasSub name (str "smoothie")
        || hasSub name (str "juice") then some (str "Beverage")
    else if hasSub name (str "snack") then some (str "Snack")
    else some (str "Main Dish")
  let cuisine : Option Str :=
    if truthy recipe.current_cuisine then none
    else if hasSub name (str "italian") || hasSub name (str "pasta")
        || hasSub name (str "pizza") || hasSub name (str "risotto") then some (str "Italian")
    else if hasSub name (str "mexican") || hasSub name (str "taco")
        || hasSub name (str "burrito") || hasSub name (str "enchilada") then some (str "Mexican")
    else if hasSub name (str "chinese") || hasSub name (str "stir fry")
        || hasSub name (str "wok") then some (str "Chinese")
    else if hasSub name (str "indian") || hasSub name (str "curry")
        || hasSub name (str "masala") then some (str "Indian")
    else if hasSub name (str "french") || hasSub name (str "crepe")
        || hasSub name (str "baguette") then some (str "French")
    else if hasSub name (str "japanese") || hasSub name (str "sushi")
        || hasSub name (str "teriyaki") then some (str "Japanese")
    else if hasSub name (str "thai") || hasSub name (str "pad thai") then some (str "Thai")
    else if hasSub name (str "mediterranean") || hasSub name (str "greek") then some (str "Mediterranean")
    else none
  let key_ingredients : Option (List Str) :=
    if recipe.current_ingredients.isEmpty && ingredients.length > 0 then
      extractKeyIngredientsFromList ingredients
    else none
  let tags : Option (List Str) :=
    if recipe.current_tags.isEmpty then
      inferTagsFromNameAndIngredients name ingredients
    else none
  { standardized_title := none
    meal := meal
    cuisine := cuisine
    tags := tags
    key_ingredients := key_ingredients
    confidence := 7 / 10
    reasoning := str "Smart rule-based analysis with ingredient extraction" }

end P0

namespace P0

/-- JS `a || b` on two optional strings (falsy = absent or empty). -/
def jsOrOpt (a b : Option Str) : Option Str := if truthy a then a else b

/-- JS `o || d` where `d` is a string default. -/
def jsOrStr (o : Option Str) (d : Str) : Str :=
  match o with
  | some s => if s.isEmpty then d else s
  | none => d

/-- JS `n || null` on an already-parsed `parseInt` result: `0` collapses to `null`. -/
def jsNumOrNull : Option Nat → Option Nat
  | some 0 => none
  | x => x

/-- Selector list of `extractTitle`. -/
def titleSelectors : List String :=
  [".recipe-title", ".entry-title", ".post-title", "[class*=\"recipe\"] h1",
   "h1[class*=\"title\"]", "h1"]

/-- extractTitle: first selector whose first element text (trimmed) is longer
than 5 characters, truncated to 200 characters. -/
def extractTitle (d : Doc) : Option Str :=
  titleSelectors.findSome? fun sel =>
    let title := trimWs ((d.texts sel).headD [])
    if title.length > 5 then some (title.take 200) else none

/-- Selector list of `extractIngredients`. -/
def ingredientSelectors : List String :=
  [".recipe-ingredient", ".ingredient", "[class*=\"ingredient\"]",
   "[itemprop=\"recipeIngredient\"]", ".ingredients li", ".recipe-ingredients li",
   "ul[class*=\"ingredient\"] li"]

/-- extractIngredients: first selector that yields at least one trimmed text of
length in (2, 200); de-duplicated, at most 25. -/
def extractIngredients (d : Doc) : List Str :=
  let found := (titleScan ingredientSelectors)
  (dedupFirst found).take 25
where
  titleScan : List String → List Str
    | [] => []
    | sel :: rest =>
      let got := ((d.texts sel).map trimWs).filter fun t =>
        decide (t.length > 2) && decide (t.length < 200)
      if got.length > 0 then got else titleScan rest

/-- Selector list of `extractInstructions`. -/
def instructionSelectors : List String :=
  [".recipe-instruction", ".instruction", "[class*=\"instruction\"]",
   "[itemprop=\"recipeInstructions\"]", ".instructions li", ".recipe-instructions li",
   "ol[class*=\"instruction\"] li"]

/-- extractInstructions: first selector that yields at least one trimmed text of
length in (5, 1000); at most 20 steps. -/
def extractInstructions (d : Doc) : List Str :=
  (scan instructionSelectors).take 20
where
  scan : List String → List Str
    | [] => []
    | sel :: rest =>
      let got := ((d.texts sel).map trimWs).filter fun t =>
        decide (t.length > 5) && decide (t.length < 1000)
      if got.length > 0 then got else scan rest

/-- The image-extension pattern of `isValidImageUrl`. -/
def imageExts : List Str :=
  [str "jpg", str "jpeg", str "png", str "gif", str "webp", str "svg"]

/-- The image-domain pattern of `isValidImageUrl`. -/
def imageDomains : List Str :=
  [str ".amazonaws.com", str ".cloudfront.net", str ".wp.com", str ".squarespace.com"]

/-- isValidImageUrl: http(s) scheme plus a recognized image extension (followed
by `?` or end of string) or a recognized image-hosting domain, case-insensitively. -/
def isValidImageUrl (url : Str) : Bool :=
  (str "http").isPrefixOf url &&
    (let u := toLowerStr url
     imageExts.any (fun e =>
        hasSub u ((str "." ++ e) ++ str "?") || (str "." ++ e).isSuffixOf u)
      || imageDomains.any (fun dgrp => hasSub u dgrp))

/-- Priority selector list of `extractMainImage`. -/
def prioritySelectors : List String :=
  [".recipe-image img", ".post-thumbnail img", ".featured-image img",
   "[class*=\"recipe\"] img"]

/-- extractMainImage: walk the priority selectors, validating and de-duplicating
by URL, stopping once 3 images are collected (checked between selectors);
`null` when none found. -/
def extractMainImage (d : Doc) : Option (List ImageInfo) :=
  let images := scan prioritySelectors []
  if images.length > 0 then some images else none
where
  addEl (acc : List ImageInfo) (el : ImgEl) : List ImageInfo :=
    match jsOrOpt el.src el.dataSrc with
    | some src =>
      if !src.isEmpty && isValidImageUrl src && !(acc.any (fun i => i.url == src)) then
        acc ++ [{ url := src, alt := (el.alt).getD [], width := jsNumOrNull el.width,
                  height := jsNumOrNull el.height, source := "priority" }]
      else acc
    | none => acc
  scan : List String → List ImageInfo → List ImageInfo
    | [], acc => acc
    | sel :: rest, acc =>
      let acc' := (d.imgs sel).foldl addEl acc
      if acc'.length ≥ 3 then acc' else scan rest acc'

/-- Selector list of `extractDescription`. -/
def descSelectors : List String :=
  [".recipe-description", ".recipe-summary", ".entry-content p", "[class*=\"description\"]"]

/-- extractDescription: first selector whose first trimmed text has length in (50, 500). -/
def extractDescription (d : Doc) : Option Str :=
  descSelectors.findSome? fun sel =>
    let desc := trimWs ((d.texts sel).headD [])
    if desc.length > 50 && desc.length < 500 then some desc else none

/-- The `recipeData` object assembled from a successfully parsed page. -/
def buildRecipeData (d : Doc) : PageData :=
  { title := extractTitle d
    ingredients := extractIngredients d
    instructions := extractInstructions d
    images := extractMainImage d
    description := extractDescription d }

/-- Outcome of the guarded page fetch (`withTimeout(withRetry(fetch ...))`
followed by `response.text()` and `cheerio.load`): a network/timeout error, a
response whose body fails to parse, or a response with its status and parsed
document. -/
inductive FetchOutcome where
  | netError : FetchOutcome
  | parseFailure : Nat → FetchOutcome
  | httpResponse : Nat → Doc → FetchOutcome

/-- extractRecipeFromURL: `null` for a missing URL; fresh cache entries are
returned as-is; any thrown error (network, timeout, non-2xx which is raised as
an error, body/parse failure) is caught and yields `null`; otherwise the page
is scraped into a `PageData`. -/
def extractRecipeFromURL (url : Option Str) (cached : Option (PageData × Nat)) (now : Nat)
    (outcome : FetchOutcome) : Option PageData :=
  if !truthy url then none
  else
    let fetched : Option PageData :=
      match outcome with
      | .netError => none
      | .parseFailure _ => none
      | .httpResponse status d =>
        if 200 ≤ status ∧ status < 300 then some (buildRecipeData d) else none
    match cached with
    | some dts => if now - dts.2 < CACHE_TTL_MS then some dts.1 else fetched
    | none => fetched

/-- Outcome of the OpenAI call in the circuit-breaker variant: `failure` covers
every thrown path (timeout, non-2xx, empty content, invalid structure), and
`content` carries the trimmed response text handed to `JSON.parse`. -/
inductive AIOutcome where
  | failure : AIOutcome
  | content : Str → AIOutcome

/-- Result of one `analyzeRecipeWithAI` call: the analysis, the breaker state
after the call, whether the OpenAI network call was dispatched, and the value
written to the cache (if any). -/
structure AIRun where
  analysis : Analysis
  breaker : CircuitBreaker
  usedAI : Bool
  cachePut : Option Analysis
  deriving DecidableEq, Repr

/-- analyzeRecipeWithAI of the circuit-breaker variant. `jp` models
`JSON.parse` on the response content (`none` = parse throws); `hasKey` models
the presence of OPENAI_API_KEY; `cached` is the cache entry under the recipe's
key. Missing key or an open breaker skips the network call and defers to the
fallback; a fresh cache hit is returned as-is; a thrown call records a breaker
failure and defers to the fallback; a parse failure defers to the fallback
without touching the breaker; success records a breaker success and caches. -/
def analyzeRecipeWithAI (jp : Str → Option Analysis) (hasKey : Bool) (cb : CircuitBreaker)
    (now : Nat) (cached : Option (Analysis × Nat)) (recipe : Recipe)
    (extractedData : Option PageData) (outcome : AIOutcome) : AIRun :=
  if !hasKey || isOpen cb now then
    { analysis := createSmartFallbackAnalysis recipe extractedData, breaker := cb,
      usedAI := false, cachePut := none }
  else
    let callAI : AIRun :=
      match outcome with
      | .failure =>
        { analysis := createSmartFallbackAnalysis recipe extractedData,
          breaker := recordFailure cb now, usedAI := true, cachePut := none }
      | .content s =>
        match jp s with
        | none =>
          { analysis := createSmartFallbackAnalysis recipe extractedData, breaker := cb,
            usedAI := true, cachePut := none }
        | some a =>
          { analysis := a, breaker := recordSuccess cb, usedAI := true, cachePut := some a }
    match cached with
    | some ats => if now - ats.2 < CACHE_TTL_MS then
        { analysis := ats.1, breaker := cb, usedAI := false, cachePut := none }
      else callAI
    | none => callAI

/-- formatSuggestedChanges of the circuit-breaker variant: an entry appears only
for a field whose current value is empty and whose suggestion is truthy resp.
non-empty; a title entry appears when the suggested title is truthy and differs
from the recipe name. -/
def formatSuggestedChanges (recipe : Recipe) (analysis : Analysis)
    (_extractedData : Option PageData) : Changes :=
  { meal :=
      match analysis.meal with
      | some m =>
        if !truthy recipe.current_meal && !m.isEmpty then
          some (jsOrStr recipe.current_meal (str "Empty"), m)
        else none
      | none => none
    cuisine :=
      match analysis.cuisine with
      | some c =>
        if !truthy recipe.current_cuisine && !c.isEmpty then
          some (jsOrStr recipe.current_cuisine (str "Empty"), c)
        else none
      | none => none
    tags :=
      match analysis.tags with
      | some l =>
        if recipe.current_tags.isEmpty && decide (l.length > 0) then
          some (recipe.current_tags, l)
        else none
      | none => none
    key_ingredients :=
      match analysis.key_ingredients with
      | some l =>
        if recipe.current_ingredients.isEmpty && decide (l.length > 0) then
          some (recipe.current_ingredients, l)
        else none
      | none => none
    title :=
      match analysis.standardized_title with
      | some t =>
        if !t.isEmpty && t != recipe.name then some (recipe.name, t) else none
      | none => none }

/-- One review item of the orchestrator's output. -/
structure ReviewItem where
  recipe : Recipe
  extractedData : Option PageData
  analysis : Analysis
  suggestedChanges : Changes
  deriving DecidableEq, Repr

/-- The per-recipe body of `createReviewData` (the `try` block of one mapped
promise): extraction when a link is present, then classification, then the
change set; `ext`/`ana` are the awaited steps, an `Except.error` models a
thrown exception, which the surrounding `catch` turns into `null`. -/
def processRecipe (ext : Recipe → Except String (Option PageData))
    (ana : Recipe → Option PageData → Except String Analysis)
    (r : Recipe) : Option ReviewItem :=
  let res : Except String ReviewItem := do
    let e ← if truthy r.link then ext r else pure none
    let a ← ana r e
    pure { recipe := r, extractedData := e, analysis := a,
           suggestedChanges := formatSuggestedChanges r a e }
  match res with
  | .ok item => some item
  | .error _ => none

/-- createReviewData: slice the batch, process every recipe (in parallel via
`Promise.all`, order-preserving), and keep the non-null results. -/
def createReviewData (ext : Recipe → Except String (Option PageData))
    (ana : Recipe → Option PageData → Except String Analysis)
    (recipes : List Recipe) : List ReviewItem :=
  (recipes.take MAX_RECIPES_PER_BATCH).filterMap (processRecipe ext ana)

end P0

/-! ## P1: the weekly-run variant (title standardization, code-fence stripping,
    validateAnalysis). -/

namespace P1

/-- A character the JS regex `.` can match (anything but a line terminator). -/
def dotChar (c : Char) : Bool := !(c = '\n') && !(c = '\r')

/-- Whether the regex tail `\s*.+$` can match a remainder string: some split
into a whitespace prefix and a non-empty line-terminator-free rest. -/
def tailFits : Str → Bool
  | [] => false
  | c :: cs => (c :: cs).all dotChar || (isWsChar c && tailFits cs)

/-- Prefix of the string before the first occurrence of `mark` at which the
regex `\s*<mark>\s*.+$` matches (or `none`). -/
def cutAt (mark : Char) : Str → Option Str
  | [] => none
  | c :: cs =>
    if c = mark && tailFits cs then some []
    else (cutAt mark cs).map (c :: ·)

/-- Drop the trailing whitespace run. -/
def dropTrailWs (s : Str) : Str := (s.reverse.dropWhile isWsChar).reverse

/-- JS `s.replace(/\s*<mark>\s*.+$/, '')` for `mark` one of `|`, `-`: remove
everything from the first feasible mark (and the whitespace run before it) to
the end. -/
def stripSiteSuffix (mark : Char) (s : Str) : Str :=
  match cutAt mark s with
  | some pre => dropTrailWs pre
  | none => s

/-- JS `s.replace(/\s*\|\s*.+$/, '')`. -/
def stripPipe (s : Str) : Str := stripSiteSuffix '|' s

/-- JS `s.replace(/\s*-\s*.+$/, '')`. -/
def stripDash (s : Str) : Str := stripSiteSuffix '-' s

/-- Prefix of the string before the leftmost position at which `Recipe\s*$`
matches case-insensitively (or `none`). -/
def recipeCut : Str → Option Str
  | [] => none
  | c :: cs =>
    if toLowerStr ((c :: cs).take 6) == str "recipe" && ((c :: cs).drop 6).all isWsChar then
      some []
    else (recipeCut cs).map (c :: ·)

/-- JS `s.replace(/Recipe\s*$/i, '')`. -/
def stripTrailRecipe (s : Str) : Str := (recipeCut s).getD s

/-- JS `s.replace(/^\s*Recipe:\s*/i, '')` (anchored; the whitespace prefix
cannot overlap the literal, so only the full whitespace run qualifies). -/
def stripLeadRecipe (s : Str) : Str :=
  let rest := s.dropWhile isWsChar
  if toLowerStr (rest.take 7) == str "recipe:" then (rest.drop 7).dropWhile isWsChar
  else s

/-- The function words kept lowercase by the title-case step. -/
def lowercaseWords : List Str :=
  [str "with", str "and", str "or", str "in", str "on", str "at", str "to",
   str "for", str "of", str "the", str "a", str "an"]

/-- One word of the title-case map: function words are lowercased, other words
get an uppercase first character and a lowercased remainder. -/
def titleCaseWord (w : Str) : Str :=
  if toLowerStr w ∈ lowercaseWords then toLowerStr w
  else
    match w with
    | [] => []
    | c :: cs => c.toUpper :: toLowerStr cs

/-- JS `s.replace(/^./, c => c.toUpperCase())`; `.` does not match a line
terminator, but uppercasing one is the identity, so mapping the head suffices. -/
def upperFirstChar : Str → Str
  | [] => []
  | c :: cs => c.toUpper :: cs

/-- `split(' ').map(titleCaseWord).join(' ')`, the body of the capitalization
pass. -/
def tcCore (s : Str) : Str := joinSpace ((splitSpace s).map titleCaseWord)

/-- The capitalization pass of `standardizeTitle`: `tcCore` followed by
uppercasing the first character. -/
def applyTitleCase (s : Str) : Str := upperFirstChar (tcCore s)

/-- standardizeTitle: strip `| Site`, trailing `Recipe`, leading `Recipe:`
and `- Site`, trim, then title-case. -/
def standardizeTitle (title : Str) : Str :=
  applyTitleCase (trimWs (stripDash (stripLeadRecipe (stripTrailRecipe (stripPipe title)))))

/-- Remove the first occurrence of `pat` together with an optionally following
newline (JS `s.replace(/<pat>\n?/, '')` for a literal pattern). -/
def stripOnce (pat : Str) : Str → Str
  | [] => []
  | c :: cs =>
    if pat.isPrefixOf (c :: cs) then
      match (c :: cs).drop pat.length with
      | '\n' :: rest => rest
      | rest => rest
    else c :: stripOnce pat cs

/-- The code-fence cleanup of the AI response:
`if (content.includes('```')) content.replace(/```json\n?/, '').replace(/```\n?/, '')`. -/
def stripCodeFence (s : Str) : Str :=
  if hasSub s (str "```") then stripOnce (str "```") (stripOnce (str "```json") s)
  else s

/-- validateAnalysis: null out suggestions for fields that already hold data,
replace a truthy non-member meal/cuisine by the fixed default, and filter
set-valued fields down to registry members. -/
def validateAnalysis (analysis : Analysis) (recipe : Recipe) : Analysis :=
  let meal0 := if truthy recipe.current_meal then none else analysis.meal
  let cuisine0 := if truthy recipe.current_cuisine then none else analysis.cuisine
  let tags0 := if recipe.current_tags.length > 0 then none else analysis.tags
  let keys0 := if recipe.current_ingredients.length > 0 then none else analysis.key_ingredients
  { analysis with
    meal :=
      match meal0 with
      | some m => if !m.isEmpty && !(decide (m ∈ MEAL_OPTIONS)) then some (str "Main Dish") else some m
      | none => none
    cuisine :=
      match cuisine0 with
      | some c => if !c.isEmpty && !(decide (c ∈ CUISINE_OPTIONS)) then some (str "American") else some c
      | none => none
    tags := tags0.map fun l => l.filter fun t => decide (t ∈ TAG_OPTIONS)
    key_ingredients := keys0.map fun l => l.filter fun t => decide (t ∈ INGREDIENT_OPTIONS) }

/-- Outcome of the OpenAI call in this variant: any thrown path (network,
non-2xx, missing fields) or the trimmed response content. -/
inductive AIOutcome where
  | httpError : AIOutcome
  | content : Str → AIOutcome

/-- analyzeRecipeWithAI of this variant: strip the optional code fences, parse
(`jp` models `JSON.parse`; `none` = parse throws), validate; every thrown path
is caught and returns `null` — there is no fallback classification here. -/
def analyzeRecipeWithAI (jp : Str → Option Analysis) (recipe : Recipe)
    (_extractedData : Option PageData) (outcome : AIOutcome) : Option Analysis :=
  match outcome with
  | .httpError => none
  | .content s =>
    match jp (stripCodeFence s) with
    | none => none
    | some a => some (validateAnalysis a recipe)

end P1

/-! ## Concrete fixtures used by witnesses and counterexamples -/

/-- A recipe with every classification field empty. -/
def recipeEmpty : Recipe :=
  { id := "rec-empty", name := [], link := none, current_meal := none,
    current_cuisine := none, current_tags := [], current_ingredients := [] }

/-- A recipe with every classification field already filled. -/
def recipeFull : Recipe :=
  { id := "rec-full", name := str "Shakshuka", link := some (str "https://example.org/shakshuka"),
    current_meal := some (str "Breakfast"), current_cuisine := some (str "Middle Eastern"),
    current_tags := [str "Eggs"], current_ingredients := [str "Eggs", str "Tomato"] }

/-- A recipe whose meal field is already set. -/
def recipeMealSet : Recipe :=
  { id := "rec-meal", name := str "Brownies", link := none,
    current_meal := some (str "Dessert"), current_cuisine := none,
    current_tags := [], current_ingredients := [] }

/-- A classification result suggesting a value for every field. -/
def analysisSuggestAll : Analysis :=
  { standardized_title := some (str "Shakshuka Deluxe"), meal := some (str "Main Dish"),
    cuisine := some (str "American"), tags := some [str "Savory"],
    key_ingredients := some [str "Eggs"], confidence := 9 / 10,
    reasoning := str "witness" }

/-- A classification result whose meal is the empty string (as `JSON.parse` can
produce). -/
def analysisEmptyMeal : Analysis :=
  { standardized_title := none, meal := some [], cuisine := some (str "Klingon"),
    tags := some [str "Vegan", str "NotATag"], key_ingredients := some [str "Beef", str "Plutonium"],
    confidence := 1 / 2, reasoning := [] }

/-- A `JSON.parse` model that fails on every input. -/
def jpNone : Str → Option Analysis := fun _ => none

/-- A page document with no matching elements. -/
def docEmpty : Doc := { texts := fun _ => [], imgs := fun _ => [] }

/-- The breaker state after three consecutive recorded failures at `t1 t2 t3`. -/
def P0.threeFailures (cb0 : P0.CircuitBreaker) (t1 t2 t3 : Nat) : P0.CircuitBreaker :=
  P0.recordFailure (P0.recordFailure (P0.recordFailure cb0 t1) t2) t3

/-- A fence-wrapped AI response body. -/
def fenced (body : Str) : Str := str "```json\n" ++ (body ++ str "\n```")

/-- The backtick character. -/
def backtick : Char := Char.ofNat 96

/-- Batch-isolation fixtures: three recipes, the middle one's classification throws. -/
def recipeA : Recipe :=
  { id := "rec-a", name := str "Lentil Soup", link := none, current_meal := none,
    current_cuisine := none, current_tags := [], current_ingredients := [] }

/-- Second batch recipe (its classification step will throw). -/
def recipeB : Recipe :=
  { id := "rec-b", name := str "Falafel", link := none, current_meal := none,
    current_cuisine := none, current_tags := [], current_ingredients := [] }

/-- Third batch recipe. -/
def recipeC : Recipe :=
  { id := "rec-c", name := str "Tacos", link := none, current_meal := none,
    current_cuisine := none, current_tags := [], current_ingredients := [] }

/-- Extraction step of the batch fixture: always succeeds with no page data. -/
def extOkNone : Recipe → Except String (Option PageData) := fun _ => .ok none

/-- Classification step of the batch fixture: throws on `recipeB`, classifies
the others with `analysisSuggestAll`. -/
def anaThrowsOnB : Recipe → Option PageData → Except String Analysis := fun r _ =>
  if r.id = "rec-b" then .error "boom" else .ok analysisSuggestAll

/-- The review item the batch fixture produces for `recipeA`. -/
def itemA : P0.ReviewItem :=
  { recipe := recipeA, extractedData := none, analysis := analysisSuggestAll,
    suggestedChanges := P0.formatSuggestedChanges recipeA analysisSuggestAll none }

/-- The review item the batch fixture produces for `recipeC`. -/
def itemC : P0.ReviewItem :=
  { recipe := recipeC, extractedData := none, analysis := analysisSuggestAll,
    suggestedChanges := P0.formatSuggestedChanges recipeC analysisSuggestAll none }

/-! ## Helper lemmas -/

theorem isEmpty_false_of_ne {l : List Str} (h : l ≠ []) : l.isEmpty = false := by
  cases l
  · exact absurd rfl h
  · rfl

theorem mem_condTag {x t : Str} {b : Bool} (h : x ∈ P0.condTag b t) : b = true ∧ x = t := by
  unfold P0.condTag at h
  split at h
  · next hb => exact ⟨hb, by simpa using h⟩
  · simp at h

theorem length_filterMap_isSome {α β : Type} (f : α → Option β) (l : List α) :
    (l.filterMap f).length = (l.filter fun a => (f a).isSome).length := by
  induction l with
  | nil => rfl
  | cons a l ih =>
    cases h : f a <;> simp [List.filterMap_cons, List.filter_cons, h, ih]

/-! ## C1 -/

/-- C1: for every recipe record and classification result (whether it came from
the AI path or the fallback path), a categorical field that is already
non-empty on the recipe gets no entry in the Suggested Change Set. -/
theorem never_overwrite_nonempty_fields (r : Recipe) (a : Analysis) (e : Option PageData) :
    (truthy r.current_meal = true → (P0.formatSuggestedChanges r a e).meal = none) ∧
    (truthy r.current_cuisine = true → (P0.formatSuggestedChanges r a e).cuisine = none) ∧
    (r.current_tags ≠ [] → (P0.formatSuggestedChanges r a e).tags = none) ∧
    (r.current_ingredients ≠ [] → (P0.formatSuggestedChanges r a e).key_ingredients = none) := by
  refine ⟨fun h => ?_, fun h => ?_, fun h => ?_, fun h => ?_⟩
  · simp only [P0.formatSuggestedChanges]
    cases a.meal with
    | none => rfl
    | some m => simp [h]
  · simp only [P0.formatSuggestedChanges]
    cases a.cuisine with
    | none => rfl
    | some c => simp [h]
  · simp only [P0.formatSuggestedChanges]
    cases a.tags with
    | none => rfl
    | some l => simp [isEmpty_false_of_ne h]
  · simp only [P0.formatSuggestedChanges]
    cases a.key_ingredients with
    | none => rfl
    | some l => simp [isEmpty_false_of_ne h]

/-- Witness for C1 at a fully populated recipe. -/
theorem never_overwrite_nonempty_fields_witness :
    (P0.formatSuggestedChanges recipeFull analysisSuggestAll none).meal = none ∧
    (P0.formatSuggestedChanges recipeFull analysisSuggestAll none).cuisine = none ∧
    (P0.formatSuggestedChanges recipeFull analysisSuggestAll none).tags = none ∧
    (P0.formatSuggestedChanges recipeFull analysisSuggestAll none).key_ingredients = none :=
  ⟨(never_overwrite_nonempty_fields recipeFull analysisSuggestAll none).1 (by decide),
   (never_overwrite_nonempty_fields recipeFull analysisSuggestAll none).2.1 (by decide),
   (never_overwrite_nonempty_fields recipeFull analysisSuggestAll none).2.2.1 (by decide),
   (never_overwrite_nonempty_fields recipeFull analysisSuggestAll none).2.2.2 (by decide)⟩

/-! ## C2 -/

/-- C2 counterexample: a classification result whose meal is the empty string
passes `validateAnalysis` unchanged, so a non-null categorical value that is
not a member of its Vocabulary Registry axis survives validation without being
replaced by the default. -/
theorem vocabulary_closure_counterexample :
    (P1.validateAnalysis analysisEmptyMeal recipeEmpty).meal = some [] ∧
    ([] : Str) ∉ MEAL_OPTIONS := by
  constructor
  · decide
  · decide

/-- C2 amended: after validation every non-null, non-empty categorical value is
a member of its Vocabulary Registry axis (a non-member non-empty meal is
replaced by Main Dish, a non-member non-empty cuisine by American, and
non-member tags and key ingredients are filtered out); only the empty string
can escape the single-valued checks. -/
theorem vocabulary_closure_amended (a : Analysis) (r : Recipe) :
    (∀ m, (P1.validateAnalysis a r).meal = some m → m ≠ [] → m ∈ MEAL_OPTIONS) ∧
    (∀ c, (P1.validateAnalysis a r).cuisine = some c → c ≠ [] → c ∈ CUISINE_OPTIONS) ∧
    (∀ l, (P1.validateAnalysis a r).tags = some l → ∀ t ∈ l, t ∈ TAG_OPTIONS) ∧
    (∀ l, (P1.validateAnalysis a r).key_ingredients = some l →
      ∀ t ∈ l, t ∈ INGREDIENT_OPTIONS) := by
  simp only [P1.validateAnalysis]
  refine ⟨?_, ?_, ?_, ?_⟩
  · intro m hm hne
    split at hm
    · split at hm
      · next heq =>
        simp at hm
        subst hm
        decide
      · next hcond =>
        simp at hm
        subst hm
        simp at hcond
        exact hcond hne
    · simp at hm
  · intro c hc hne
    split at hc
    · split at hc
      · next heq =>
        simp at hc
        subst hc
        decide
      · next hcond =>
        simp at hc
        subst hc
        simp at hcond
        exact hcond hne
    · simp at hc
  · intro l hl t ht
    split at hl
    · simp at hl
    · cases htags : a.tags with
      | none => rw [htags] at hl; simp at hl
      | some l0 =>
        rw [htags] at hl
        simp at hl
        subst hl
        have := List.mem_filter.mp ht
        simpa using this.2
  · intro l hl t ht
    split at hl
    · simp at hl
    · cases hkeys : a.key_ingredients with
      | none => rw [hkeys] at hl; simp at hl
      | some l0 =>
        rw [hkeys] at hl
        simp at hl
        subst hl
        have := List.mem_filter.mp ht
        simpa using this.2

/-- Witness for C2's amended theorem: the non-member cuisine `Klingon` is
replaced by the registry member `American`. -/
theorem vocabulary_closure_amended_witness :
    (P1.validateAnalysis analysisEmptyMeal recipeEmpty).cuisine = some (str "American") ∧
    str "American" ∈ CUISINE_OPTIONS :=
  ⟨by decide,
   (vocabulary_closure_amended analysisEmptyMeal recipeEmpty).2.1 (str "American")
     (by decide) (by decide)⟩

/-! ## C4 -/

/-- C4: page extraction fails soft — a network/timeout error, a body/parse
failure, or a non-2xx response all make `extractRecipeFromURL` return `null`
(never an exception), for every URL. -/
theorem extraction_fails_soft (url : Option Str) (now st : Nat) (d : Doc) :
    P0.extractRecipeFromURL url none now .netError = none ∧
    P0.extractRecipeFromURL url none now (.parseFailure st) = none ∧
    (st < 200 ∨ 300 ≤ st →
      P0.extractRecipeFromURL url none now (.httpResponse st d) = none) := by
  refine ⟨?_, ?_, fun h => ?_⟩
  · simp only [P0.extractRecipeFromURL]
    split
    · rfl
    · rfl
  · simp only [P0.extractRecipeFromURL]
    split
    · rfl
    · rfl
  · simp only [P0.extractRecipeFromURL]
    split
    · rfl
    · rw [if_neg (by omega)]

/-- Witness for C4: a concrete URL with a 404 response, a network error and a
parse failure all yield `null`. -/
theorem extraction_fails_soft_witness :
    P0.extractRecipeFromURL (some (str "https://example.org/r")) none 0 .netError = none ∧
    P0.extractRecipeFromURL (some (str "https://example.org/r")) none 0 (.parseFailure 200) = none ∧
    P0.extractRecipeFromURL (some (str "https://example.org/r")) none 0 (.httpResponse 404 docEmpty) = none :=
  ⟨(extraction_fails_soft (some (str "https://example.org/r")) 0 200 docEmpty).1,
   (extraction_fails_soft (some (str "https://example.org/r")) 0 200 docEmpty).2.1,
   (extraction_fails_soft (some (str "https://example.org/r")) 0 404 docEmpty).2.2 (by omega)⟩

/-! ## C3 -/

/-- C3: after three consecutive recorded AI-call failures the next
classification call, made within the reset window of the last failure, skips
the OpenAI network call and returns exactly the fallback classifier's result;
a call made after the reset window has elapsed dispatches the AI path again. -/
theorem circuit_breaker_transition (jp : Str → Option Analysis) (cb0 : P0.CircuitBreaker)
    (t1 t2 t3 now now2 : Nat) (r : Recipe) (e : Option PageData) (o : P0.AIOutcome)
    (h1 : now - t3 < P0.resetTime) (h2 : P0.resetTime ≤ now2 - t3) :
    (P0.analyzeRecipeWithAI jp true (P0.threeFailures cb0 t1 t2 t3) now none r e o).analysis
        = P0.createSmartFallbackAnalysis r e ∧
    (P0.analyzeRecipeWithAI jp true (P0.threeFailures cb0 t1 t2 t3) now none r e o).usedAI
        = false ∧
    (P0.analyzeRecipeWithAI jp true (P0.threeFailures cb0 t1 t2 t3) now2 none r e o).usedAI
        = true := by
  have hth : (P0.threeFailures cb0 t1 t2 t3).failures ≥ P0.threshold := by
    show cb0.failures + 1 + 1 + 1 ≥ 3
    omega
  have hlast : (P0.threeFailures cb0 t1 t2 t3).lastFailTime = some t3 := rfl
  have hopen : P0.isOpen (P0.threeFailures cb0 t1 t2 t3) now = true := by
    unfold P0.isOpen
    rw [if_pos hth, hlast]
    simpa using h1
  have hclosed : P0.isOpen (P0.threeFailures cb0 t1 t2 t3) now2 = false := by
    unfold P0.isOpen
    rw [if_pos hth, hlast]
    simp only [Option.getD_some]
    simp
    omega
  refine ⟨?_, ?_, ?_⟩
  · simp [P0.analyzeRecipeWithAI, hopen]
  · simp [P0.analyzeRecipeWithAI, hopen]
  · simp only [P0.analyzeRecipeWithAI, hclosed]
    cases o with
    | failure => simp
    | content s => cases hjp : jp s <;> simp [hjp]

/-- Witness for C3 with concrete failure times and clock readings. -/
theorem circuit_breaker_transition_witness :
    (P0.analyzeRecipeWithAI jpNone true (P0.threeFailures ⟨0, none⟩ 0 1 2) 3 none
        recipeEmpty none .failure).analysis
      = P0.createSmartFallbackAnalysis recipeEmpty none ∧
    (P0.analyzeRecipeWithAI jpNone true (P0.threeFailures ⟨0, none⟩ 0 1 2) 3 none
        recipeEmpty none .failure).usedAI = false ∧
    (P0.analyzeRecipeWithAI jpNone true (P0.threeFailures ⟨0, none⟩ 0 1 2) 300002 none
        recipeEmpty none .failure).usedAI = true :=
  circuit_breaker_transition jpNone ⟨0, none⟩ 0 1 2 3 300002 recipeEmpty none .failure
    (by decide) (by decide)

/-! ## C9 -/

/-- C9: the passage of the reset window closes the breaker without resetting
the failure count — only a recorded success does that — so one further recorded
failure immediately re-opens the breaker for calls inside its fresh window. -/
theorem breaker_count_not_reset_by_time (cb : P0.CircuitBreaker) (t tf now now2 : Nat)
    (hf : P0.threshold ≤ cb.failures) (hl : cb.lastFailTime = some t)
    (h1 : P0.resetTime ≤ now - t) (h2 : now2 - tf < P0.resetTime) :
    P0.isOpen cb now = false ∧
    (P0.recordFailure cb tf).failures = cb.failures + 1 ∧
    P0.isOpen (P0.recordFailure cb tf) now2 = true := by
  refine ⟨?_, rfl, ?_⟩
  · unfold P0.isOpen
    rw [if_pos hf, hl]
    simp only [Option.getD_some]
    simp
    omega
  · have hf3 : 3 ≤ cb.failures := hf
    unfold P0.isOpen
    rw [if_pos (by show cb.failures + 1 ≥ 3; omega)]
    show decide (now2 - (some tf).getD 0 < P0.resetTime) = true
    simpa using h2

/-- Witness for C9: breaker opened at time 2, window elapsed by time 300002,
one further failure at 300002 re-opens it at 300003. -/
theorem breaker_count_not_reset_by_time_witness :
    P0.isOpen ⟨3, some 2⟩ 300002 = false ∧
    (P0.recordFailure ⟨3, some 2⟩ 300002).failures = 3 + 1 ∧
    P0.isOpen (P0.recordFailure ⟨3, some 2⟩ 300002) 300003 = true :=
  breaker_count_not_reset_by_time ⟨3, some 2⟩ 2 300002 300002 300003
    (by decide) rfl (by decide) (by decide)

/-! ## C5 -/

theorem stripOnce_fence_head (rest : Str) :
    P1.stripOnce (str "```json") (str "```json\n" ++ rest) = rest := rfl

theorem stripOnce_fence_tail {body : Str} (hb : backtick ∉ body) :
    P1.stripOnce (str "```") (body ++ str "\n```") = body ++ ['\n'] := by
  induction body with
  | nil => rfl
  | cons c body ih =>
    have hc : backtick ≠ c := fun h => hb (h ▸ List.mem_cons_self c body)
    have hb' : backtick ∉ body := fun h => hb (List.mem_cons_of_mem c h)
    show P1.stripOnce (str "```") (c :: (body ++ str "\n```")) = c :: (body ++ ['\n'])
    rw [P1.stripOnce, if_neg ?hpre]
    · rw [ih hb']
    case hpre =>
      rw [show str "```" = [backtick, backtick, backtick] from rfl]
      simp only [List.isPrefixOf, Bool.and_eq_true, beq_iff_eq]
      rintro ⟨h, -⟩
      exact hc h

theorem hasSub_fenced (body : Str) : hasSub (fenced body) (str "```") = true := rfl

theorem stripCodeFence_fenced {body : Str} (hb : backtick ∉ body) :
    P1.stripCodeFence (fenced body) = body ++ ['\n'] := by
  unfold P1.stripCodeFence
  rw [hasSub_fenced, if_pos rfl]
  show P1.stripOnce (str "```")
      (P1.stripOnce (str "```json") (str "```json\n" ++ (body ++ str "\n```"))) = _
  rw [stripOnce_fence_head, stripOnce_fence_tail hb]

/-- C5 counterexample: in the variant that strips code fences, content that is
still not valid JSON makes the classifier return `null` — the result is not
the Fallback Classifier's (always non-null) result; the claim's combination of
fence stripping and fallback-on-parse-failure holds in no single variant. -/
theorem fence_stripping_counterexample :
    P1.analyzeRecipeWithAI jpNone recipeEmpty none (.content (str "this is not JSON"))
      ≠ some (P0.createSmartFallbackAnalysis recipeEmpty none) := by
  decide

/-- C5 amended: in the fence-stripping variant, a response wrapped in
```json fences has the fence wrapping stripped and the inner content parsed;
when the parsed content yields a result it is validated and returned, and when
the (stripped) content is still not valid JSON the call returns `null` without
propagating an error — the Fallback Classifier is not consulted in this
variant (only the circuit-breaker variant falls back on parse failure, and
that variant does not strip fences). -/
theorem fence_stripping_amended (jp : Str → Option Analysis) (r : Recipe)
    (e : Option PageData) (body : Str) (hb : backtick ∉ body) :
    P1.stripCodeFence (fenced body) = body ++ ['\n'] ∧
    (∀ a, jp (body ++ ['\n']) = some a →
      P1.analyzeRecipeWithAI jp r e (.content (fenced body))
        = some (P1.validateAnalysis a r)) ∧
    (jp (body ++ ['\n']) = none →
      P1.analyzeRecipeWithAI jp r e (.content (fenced body)) = none) := by
  have hstrip := stripCodeFence_fenced hb
  refine ⟨hstrip, fun a ha => ?_, fun ha => ?_⟩
  · simp [P1.analyzeRecipeWithAI, hstrip, ha]
  · simp [P1.analyzeRecipeWithAI, hstrip, ha]

/-- Witness for C5's amended theorem on a concrete fenced body. -/
theorem fence_stripping_amended_witness :
    P1.stripCodeFence (fenced (str "[1, 2]")) = str "[1, 2]" ++ ['\n'] ∧
    P1.analyzeRecipeWithAI jpNone recipeEmpty none (.content (fenced (str "[1, 2]"))) = none :=
  ⟨(fence_stripping_amended jpNone recipeEmpty none (str "[1, 2]") (by decide)).1,
   (fence_stripping_amended jpNone recipeEmpty none (str "[1, 2]") (by decide)).2.2 rfl⟩

/-! ## C6 -/

/-- C6 counterexample: for a recipe whose meal field is already set, the
fallback classifier (called with an absent extracted-data argument) returns a
`null` meal type, refuting the claim's "non-null meal type for every recipe". -/
theorem fallback_meal_counterexample :
    (P0.createSmartFallbackAnalysis recipeMealSet none).meal = none := by
  decide

/-- C6 amended: called with no network access and an absent extracted-data
argument, the fallback classifier (a total function, hence it never throws)
returns a result whose confidence is 0.7, which lies in [0, 1], and whose meal
type is non-null whenever the recipe's meal field is empty. -/
theorem fallback_availability_amended (r : Recipe) (h : truthy r.current_meal = false) :
    (P0.createSmartFallbackAnalysis r none).meal.isSome = true ∧
    (P0.createSmartFallbackAnalysis r none).confidence = 7 / 10 ∧
    0 ≤ (P0.createSmartFallbackAnalysis r none).confidence ∧
    (P0.createSmartFallbackAnalysis r none).confidence ≤ 1 := by
  have hc : (P0.createSmartFallbackAnalysis r none).confidence = 7 / 10 := rfl
  refine ⟨?_, hc, by rw [hc]; norm_num, by rw [hc]; norm_num⟩
  simp only [P0.createSmartFallbackAnalysis, h]
  split_ifs <;> simp_all

/-- Witness for C6's amended theorem at a recipe with an empty meal field. -/
theorem fallback_availability_amended_witness :
    (P0.createSmartFallbackAnalysis recipeEmpty none).meal.isSome = true ∧
    (P0.createSmartFallbackAnalysis recipeEmpty none).confidence = 7 / 10 ∧
    0 ≤ (P0.createSmartFallbackAnalysis recipeEmpty none).confidence ∧
    (P0.createSmartFallbackAnalysis recipeEmpty none).confidence ≤ 1 :=
  fallback_availability_amended recipeEmpty (by decide)

/-! ## C7 -/

/-- C7: for every batch and any behaviour of the extraction and classification
steps, each recipe of the processed batch whose steps succeed contributes its
review item to the orchestrator's output, and the output consists of exactly
the successfully processed recipes — a recipe whose step throws is omitted
without aborting the batch. -/
theorem batch_partial_failure_isolation (ext : Recipe → Except String (Option PageData))
    (ana : Recipe → Option PageData → Except String Analysis) (recipes : List Recipe) :
    (∀ r ∈ recipes.take P0.MAX_RECIPES_PER_BATCH, ∀ item,
      P0.processRecipe ext ana r = some item →
        item ∈ P0.createReviewData ext ana recipes) ∧
    (P0.createReviewData ext ana recipes).length =
      ((recipes.take P0.MAX_RECIPES_PER_BATCH).filter
        (fun r => (P0.processRecipe ext ana r).isSome)).length := by
  constructor
  · intro r hr item hit
    show item ∈ (recipes.take P0.MAX_RECIPES_PER_BATCH).filterMap (P0.processRecipe ext ana)
    exact List.mem_filterMap.mpr ⟨r, hr, hit⟩
  · show ((recipes.take P0.MAX_RECIPES_PER_BATCH).filterMap (P0.processRecipe ext ana)).length = _
    exact length_filterMap_isSome _ _

/-- Witness for C7: in a three-recipe batch whose middle recipe throws during
classification, the other two review items are still returned. -/
theorem batch_partial_failure_isolation_witness :
    P0.processRecipe extOkNone anaThrowsOnB recipeB = none ∧
    itemA ∈ P0.createReviewData extOkNone anaThrowsOnB [recipeA, recipeB, recipeC] ∧
    itemC ∈ P0.createReviewData extOkNone anaThrowsOnB [recipeA, recipeB, recipeC] :=
  ⟨rfl,
   (batch_partial_failure_isolation extOkNone anaThrowsOnB [recipeA, recipeB, recipeC]).1
     recipeA (by decide) itemA rfl,
   (batch_partial_failure_isolation extOkNone anaThrowsOnB [recipeA, recipeB, recipeC]).1
     recipeC (by decide) itemC rfl⟩

/-! ## C10 -/

theorem vegan_not_in_method (name : Str) (ingredients : List Str) :
    str "Vegan" ∉ P0.methodAndFlavorTags name ingredients := by
  intro h
  simp only [P0.methodAndFlavorTags, List.mem_append] at h
  rcases h with ((((((((((((h | h) | h) | h) | h) | h) | h) | h) | h) | h) | h) | h) | h) | h <;>
    exact absurd (mem_condTag h).2 (by decide)

theorem vegetarian_not_in_method (name : Str) (ingredients : List Str) :
    str "Vegetarian" ∉ P0.methodAndFlavorTags name ingredients := by
  intro h
  simp only [P0.methodAndFlavorTags, List.mem_append] at h
  rcases h with ((((((((((((h | h) | h) | h) | h) | h) | h) | h) | h) | h) | h) | h) | h) | h <;>
    exact absurd (mem_condTag h).2 (by decide)

theorem mem_dietary_vegan {name : Str} {ingredients : List Str}
    (h : str "Vegan" ∈ P0.dietaryTags name ingredients) :
    P0.hasMeat name ingredients = false ∧
    hasSub (P0.ingText ingredients) (str "egg") = false ∧
    hasSub (P0.ingText ingredients) (str "cheese") = false := by
  unfold P0.dietaryTags at h
  split at h
  · next hc =>
    simp only [Bool.and_eq_true, Bool.not_eq_true'] at hc
    exact ⟨hc.1.1, hc.1.2, hc.2⟩
  · split at h
    · exact absurd (List.mem_singleton.mp h) (by decide)
    · exact absurd h (List.not_mem_nil _)

theorem mem_dietary_vegetarian {name : Str} {ingredients : List Str}
    (h : str "Vegetarian" ∈ P0.dietaryTags name ingredients) :
    P0.hasMeat name ingredients = false ∧
    (hasSub (P0.ingText ingredients) (str "egg") = true ∨
     hasSub (P0.ingText ingredients) (str "cheese") = true) := by
  unfold P0.dietaryTags at h
  split at h
  · exact absurd (List.mem_singleton.mp h) (by decide)
  · split at h
    · next hc1 hc2 =>
      have hm : P0.hasMeat name ingredients = false := by simpa using hc2
      refine ⟨hm, ?_⟩
      simp only [hm, Bool.not_false, Bool.true_and, Bool.and_eq_true, Bool.not_eq_true',
        not_and_or, Bool.not_eq_false] at hc1
      simpa using hc1
    · exact absurd h (List.not_mem_nil _)

/-- C10: the fallback tag inference never emits both Vegan and Vegetarian in
one tag set: Vegan is emitted only when no meat keyword occurs (in the name or
the ingredient text) and no egg/cheese substring occurs in the ingredient
text, Vegetarian only when an egg or cheese mention is present in the
ingredient text without any meat keyword. -/
theorem vegan_vegetarian_exclusive (name : Str) (ingredients : List Str) (l : List Str)
    (hres : P0.inferTagsFromNameAndIngredients name ingredients = some l) :
    ¬(str "Vegan" ∈ l ∧ str "Vegetarian" ∈ l) ∧
    (str "Vegan" ∈ l →
      P0.hasMeat name ingredients = false ∧
      hasSub (P0.ingText ingredients) (str "egg") = false ∧
      hasSub (P0.ingText ingredients) (str "cheese") = false) ∧
    (str "Vegetarian" ∈ l →
      P0.hasMeat name ingredients = false ∧
      (hasSub (P0.ingText ingredients) (str "egg") = true ∨
       hasSub (P0.ingText ingredients) (str "cheese") = true)) := by
  have hl : l = (P0.allTags name ingredients).take 4 := by
    simp only [P0.inferTagsFromNameAndIngredients] at hres
    split at hres
    · exact (Option.some.inj hres).symm
    · exact absurd hres (by simp)
  have hsub : ∀ x : Str, x ∈ l → x ∈ P0.allTags name ingredients := by
    intro x hx
    exact List.take_subset _ _ (hl ▸ hx)
  have hveg : str "Vegan" ∈ l →
      P0.hasMeat name ingredients = false ∧
      hasSub (P0.ingText ingredients) (str "egg") = false ∧
      hasSub (P0.ingText ingredients) (str "cheese") = false := by
    intro hv
    have := hsub _ hv
    unfold P0.allTags at this
    rcases List.mem_append.mp this with h | h
    · exact absurd h (vegan_not_in_method name ingredients)
    · exact mem_dietary_vegan h
  have hvgt : str "Vegetarian" ∈ l →
      P0.hasMeat name ingredients = false ∧
      (hasSub (P0.ingText ingredients) (str "egg") = true ∨
       hasSub (P0.ingText ingredients) (str "cheese") = true) := by
    intro hv
    have := hsub _ hv
    unfold P0.allTags at this
    rcases List.mem_append.mp this with h | h
    · exact absurd h (vegetarian_not_in_method name ingredients)
    · exact mem_dietary_vegetarian h
  refine ⟨?_, hveg, hvgt⟩
  rintro ⟨h1, h2⟩
  rcases (hvgt h2).2 with he | he
  · rw [(hveg h1).2.1] at he
    exact Bool.false_ne_true he
  · rw [(hveg h1).2.2] at he
    exact Bool.false_ne_true he

/-- Witness for C10 at a concrete meatless recipe name: the inferred tag list
contains Vegan and therefore not Vegetarian. -/
theorem vegan_vegetarian_exclusive_witness :
    P0.inferTagsFromNameAndIngredients (str "veggie soup") [str "tofu"]
      = some [str "Soup", str "Vegan"] ∧
    ¬(str "Vegan" ∈ [str "Soup", str "Vegan"] ∧
      str "Vegetarian" ∈ [str "Soup", str "Vegan"]) :=
  ⟨by decide,
   (vegan_vegetarian_exclusive (str "veggie soup") [str "tofu"]
     [str "Soup", str "Vegan"] (by decide)).1⟩

/-! ## C8: lemmas about the capitalization pass -/

theorem splitSpace_ne_nil (s : Str) : splitSpace s ≠ [] := by
  cases s with
  | nil => simp [splitSpace]
  | cons c cs =>
    simp only [splitSpace]
    split
    · simp
    · split
      · simp
      · simp

theorem mem_splitSpace_no_space {s w : Str} (h : w ∈ splitSpace s) : ' ' ∉ w := by
  induction s generalizing w with
  | nil =>
    simp only [splitSpace, List.mem_singleton] at h
    subst h
    simp
  | cons c cs ih =>
    simp only [splitSpace] at h
    split at h
    · rcases List.mem_cons.mp h with h | h
      · subst h; simp
      · exact ih h
    · next hc =>
      rcases hsp : splitSpace cs with _ | ⟨w0, ws⟩
      · exact absurd hsp (splitSpace_ne_nil cs)
      · rw [hsp] at h
        rcases List.mem_cons.mp h with h | h
        · subst h
          intro hmem
          rcases List.mem_cons.mp hmem with h' | h'
          · exact hc h'.symm
          · exact ih (hsp ▸ List.mem_cons_self w0 ws) h'
        · exact ih (hsp ▸ List.mem_cons_of_mem w0 h)

theorem splitSpace_no_space {w : Str} (h : ' ' ∉ w) : splitSpace w = [w] := by
  induction w with
  | nil => rfl
  | cons c cs ih =>
    have hc : ¬(c = ' ') := fun hcc => h (hcc ▸ List.mem_cons_self c cs)
    have hcs : ' ' ∉ cs := fun hmem => h (List.mem_cons_of_mem c hmem)
    simp only [splitSpace, if_neg hc, ih hcs]

theorem splitSpace_append_space {w : Str} (r : Str) (h : ' ' ∉ w) :
    splitSpace (w ++ ' ' :: r) = w :: splitSpace r := by
  induction w with
  | nil => simp [splitSpace]
  | cons c cs ih =>
    have hc : ¬(c = ' ') := fun hcc => h (hcc ▸ List.mem_cons_self c cs)
    have hcs : ' ' ∉ cs := fun hmem => h (List.mem_cons_of_mem c hmem)
    show splitSpace (c :: (cs ++ ' ' :: r)) = (c :: cs) :: splitSpace r
    simp only [splitSpace, if_neg hc, ih hcs]

theorem splitSpace_joinSpace {ws : List Str} (hw : ∀ w ∈ ws, ' ' ∉ w) (hne : ws ≠ []) :
    splitSpace (joinSpace ws) = ws := by
  induction ws with
  | nil => exact absurd rfl hne
  | cons w ws ih =>
    cases ws with
    | nil =>
      show splitSpace w = [w]
      exact splitSpace_no_space (hw w (List.mem_cons_self w []))
    | cons w' ws' =>
      show splitSpace (w ++ ' ' :: joinSpace (w' :: ws')) = w :: (w' :: ws')
      rw [splitSpace_append_space _ (hw w (List.mem_cons_self w _))]
      rw [ih (fun x hx => hw x (List.mem_cons_of_mem w hx)) (by simp)]

theorem toLowerStr_toLowerStr (w : Str) : toLowerStr (toLowerStr w) = toLowerStr w := by
  induction w with
  | nil => rfl
  | cons c cs ih =>
    show c.toLower.toLower :: toLowerStr (toLowerStr cs) = c.toLower :: toLowerStr cs
    rw [toLower_toLower, ih]

theorem toLowerStr_upperFirst (w : Str) : toLowerStr (P1.upperFirstChar w) = toLowerStr w := by
  cases w with
  | nil => rfl
  | cons c cs =>
    show c.toUpper.toLower :: toLowerStr cs = c.toLower :: toLowerStr cs
    rw [toLower_toUpper]

theorem no_space_toLowerStr {w : Str} (h : ' ' ∉ w) : ' ' ∉ toLowerStr w := by
  intro hmem
  rcases List.mem_map.mp hmem with ⟨c, hc, heq⟩
  exact h ((toLower_eq_space_iff c).mp heq ▸ hc)

theorem titleCaseWord_no_space {w : Str} (h : ' ' ∉ w) : ' ' ∉ P1.titleCaseWord w := by
  unfold P1.titleCaseWord
  split
  · exact no_space_toLowerStr h
  · cases w with
    | nil => simp
    | cons c cs =>
      have hc : c ≠ ' ' := fun hcc => h (hcc ▸ List.mem_cons_self c cs)
      have hcs : ' ' ∉ cs := fun hmem => h (List.mem_cons_of_mem c hmem)
      intro hmem
      rcases List.mem_cons.mp hmem with h' | h'
      · exact hc ((toUpper_eq_space_iff c).mp h'.symm)
      · exact no_space_toLowerStr hcs h'

theorem titleCaseWord_idem (w : Str) : P1.titleCaseWord (P1.titleCaseWord w) = P1.titleCaseWord w := by
  by_cases hw : toLowerStr w ∈ P1.lowercaseWords
  · have h0 : P1.titleCaseWord w = toLowerStr w := by
      rw [P1.titleCaseWord.eq_def, if_pos hw]
    rw [h0, P1.titleCaseWord.eq_def,
      if_pos (by rw [toLowerStr_toLowerStr]; exact hw), toLowerStr_toLowerStr]
  · cases w with
    | nil =>
      have h0 : P1.titleCaseWord ([] : Str) = [] := by
        rw [P1.titleCaseWord.eq_def, if_neg hw]
      rw [h0, h0]
    | cons c cs =>
      have h0 : P1.titleCaseWord (c :: cs) = c.toUpper :: toLowerStr cs := by
        rw [P1.titleCaseWord.eq_def, if_neg hw]
      have hlow : toLowerStr (c.toUpper :: toLowerStr cs) = toLowerStr (c :: cs) := by
        show c.toUpper.toLower :: toLowerStr (toLowerStr cs) = c.toLower :: toLowerStr cs
        rw [toLower_toUpper, toLowerStr_toLowerStr]
      rw [h0, P1.titleCaseWord.eq_def, hlow, if_neg hw]
      show c.toUpper.toUpper :: toLowerStr (toLowerStr cs) = c.toUpper :: toLowerStr cs
      rw [toUpper_toUpper, toLowerStr_toLowerStr]

theorem titleCaseWord_upperFirst (w : Str) :
    P1.titleCaseWord (P1.upperFirstChar w) = P1.titleCaseWord w := by
  cases w with
  | nil => rfl
  | cons c cs =>
    have hlow : toLowerStr (c.toUpper :: cs) = toLowerStr (c :: cs) := by
      show c.toUpper.toLower :: toLowerStr cs = c.toLower :: toLowerStr cs
      rw [toLower_toUpper]
    show P1.titleCaseWord (c.toUpper :: cs) = P1.titleCaseWord (c :: cs)
    by_cases hw : toLowerStr (c :: cs) ∈ P1.lowercaseWords
    · rw [P1.titleCaseWord.eq_def, if_pos (by rw [hlow]; exact hw), hlow,
        P1.titleCaseWord.eq_def, if_pos hw]
    · rw [P1.titleCaseWord.eq_def, if_neg (by rw [hlow]; exact hw),
        P1.titleCaseWord.eq_def, if_neg hw]
      show c.toUpper.toUpper :: toLowerStr cs = c.toUpper :: toLowerStr cs
      rw [toUpper_toUpper]

theorem upperFirstChar_idem (z : Str) :
    P1.upperFirstChar (P1.upperFirstChar z) = P1.upperFirstChar z := by
  cases z with
  | nil => rfl
  | cons c cs =>
    show c.toUpper.toUpper :: cs = c.toUpper :: cs
    rw [toUpper_toUpper]

theorem splitSpace_upperFirst (s : Str) :
    splitSpace (P1.upperFirstChar s) = (splitSpace s).modifyHead P1.upperFirstChar := by
  cases s with
  | nil => rfl
  | cons c cs =>
    by_cases hc : c = ' '
    · subst hc
      show splitSpace (' '.toUpper :: cs) = (splitSpace (' ' :: cs)).modifyHead P1.upperFirstChar
      rw [show (' '.toUpper) = ' ' from rfl]
      simp only [splitSpace, if_pos rfl]
      rfl
    · have hcu : ¬(c.toUpper = ' ') := fun h => hc ((toUpper_eq_space_iff c).mp h)
      show splitSpace (c.toUpper :: cs) = (splitSpace (c :: cs)).modifyHead P1.upperFirstChar
      rcases hsp : splitSpace cs with _ | ⟨w0, ws⟩
      · exact absurd hsp (splitSpace_ne_nil cs)
      · simp only [splitSpace, if_neg hcu, if_neg hc, hsp]
        rfl

theorem tcCore_upperFirst (y : Str) : P1.tcCore (P1.upperFirstChar y) = P1.tcCore y := by
  unfold P1.tcCore
  rw [splitSpace_upperFirst]
  rcases hsp : splitSpace y with _ | ⟨w0, ws⟩
  · exact absurd hsp (splitSpace_ne_nil y)
  · simp only [List.modifyHead, List.map_cons]
    rw [titleCaseWord_upperFirst]

theorem tcCore_idem (s : Str) : P1.tcCore (P1.tcCore s) = P1.tcCore s := by
  unfold P1.tcCore
  have hwords : ∀ w ∈ (splitSpace s).map P1.titleCaseWord, ' ' ∉ w := by
    intro w hw
    rcases List.mem_map.mp hw with ⟨w0, hw0, rfl⟩
    exact titleCaseWord_no_space (mem_splitSpace_no_space hw0)
  have hne : (splitSpace s).map P1.titleCaseWord ≠ [] := by
    intro h
    exact splitSpace_ne_nil s (List.map_eq_nil_iff.mp h)
  rw [splitSpace_joinSpace hwords hne, List.map_map]
  congr 1
  exact List.map_congr_left fun w _ => titleCaseWord_idem w

theorem applyTitleCase_idem (s : Str) :
    P1.applyTitleCase (P1.applyTitleCase s) = P1.applyTitleCase s := by
  unfold P1.applyTitleCase
  rw [tcCore_upperFirst, tcCore_idem]

/-! ## C8: the claim and its correction -/

/-- C8 counterexample: title standardization is not idempotent — standardizing
"Pasta Recipe Recipe" yields "Pasta Recipe", and standardizing that again
strips the remaining trailing "Recipe" down to "Pasta". -/
theorem title_standardization_counterexample :
    P1.standardizeTitle (P1.standardizeTitle (str "Pasta Recipe Recipe"))
      ≠ P1.standardizeTitle (str "Pasta Recipe Recipe") := by
  decide

/-- C8 amended: title standardization is idempotent on every title whose
standardized form contains no further strippable pattern (no feasible
`| Site` / `- Site` suffix, no trailing `Recipe`, no leading `Recipe:`) and is
already trimmed; on such titles the second application changes nothing. In
general idempotence fails because the suffix/prefix stripping can fire again
on an already-standardized title. -/
theorem title_standardization_idempotent_amended (t : Str)
    (h1 : P1.stripPipe (P1.standardizeTitle t) = P1.standardizeTitle t)
    (h2 : P1.stripTrailRecipe (P1.standardizeTitle t) = P1.standardizeTitle t)
    (h3 : P1.stripLeadRecipe (P1.standardizeTitle t) = P1.standardizeTitle t)
    (h4 : P1.stripDash (P1.standardizeTitle t) = P1.standardizeTitle t)
    (h5 : trimWs (P1.standardizeTitle t) = P1.standardizeTitle t) :
    P1.standardizeTitle (P1.standardizeTitle t) = P1.standardizeTitle t := by
  show P1.applyTitleCase (trimWs (P1.stripDash (P1.stripLeadRecipe (P1.stripTrailRecipe
      (P1.stripPipe (P1.standardizeTitle t)))))) = P1.standardizeTitle t
  rw [h1, h2, h3, h4, h5]
  show P1.applyTitleCase (P1.applyTitleCase (trimWs (P1.stripDash (P1.stripLeadRecipe
      (P1.stripTrailRecipe (P1.stripPipe t)))))) = P1.standardizeTitle t
  rw [applyTitleCase_idem]
  rfl

/-- Witness for C8's amended theorem at the already-standardized title
"Chicken Soup". -/
theorem title_standardization_idempotent_amended_witness :
    P1.standardizeTitle (P1.standardizeTitle (str "chicken soup"))
      = P1.standardizeTitle (str "chicken soup") :=
  title_standardization_idempotent_amended (str "chicken soup")
    (by decide) (by decide) (by decide) (by decide) (by decide)
